import Mathlib

/-!
Verification of the okinoko-in_a_row game-engine contract.

This file gives a shallow embedding, in Lean 4, of the Go contract found in
`src/contract` (the current entry points of `main.go` together with the
helpers of `game.go`, `g_join.go` and `g_move.go`), and proves or refutes a
fixed list of claims about it.

Modelling conventions:
* Machine integers (`uint64`, `uint8`) are `Nat` with explicit `% 2 ^ 64`
  (resp. `% 256`) wherever Go arithmetic can wrap.
* Fallible code (`sdk.Abort`, `require`) becomes `Except String _`; a
  returned `.error` means the call aborted before any write, so an aborted
  call performs no state change by construction.
* The in-memory board `[][]Cell` produced by `reconstructBoard` becomes a
  total function `Int → Int → Cell` packaged with its dimensions; every read
  the Go code performs is bounds-checked before the access, so the values of
  the function outside the rectangle are never observed.
* The unbounded Go scan loops of `checkPatternGrid` are given the fuel
  `rows + cols`, which is proved (lemma `scan_char`) to be beyond the last
  iteration for every direction the contract uses.
-/

/-- Board cell occupancy, as in `game.go` (`Empty`, `X`, `O`). -/
inductive Cell where
  | empty
  | x
  | o
deriving DecidableEq, Repr

/-- Game variants, as in `game.go` (`TicTacToe..Squava`). -/
inductive GameType where
  | ticTacToe
  | connectFour
  | gomoku
  | ticTacToe5
  | squava
deriving DecidableEq, Repr

/-- Lifecycle status, as in `game.go`. -/
inductive GameStatus where
  | waitingForPlayer
  | inProgress
  | finished
deriving DecidableEq, Repr

/-- Numeric code of a game type (the `uint8` stored on chain). -/
def gameTypeCode : GameType → Nat
  | .ticTacToe => 1
  | .connectFour => 2
  | .gomoku => 3
  | .ticTacToe5 => 4
  | .squava => 5

/-- Numeric code of a status (the `uint8` stored on chain). -/
def statusCode : GameStatus → Nat
  | .waitingForPlayer => 0
  | .inProgress => 1
  | .finished => 2

/-- `boardDimensions` from `game.go`: `(rows, cols)` per variant. -/
def boardDimensions : GameType → Nat × Nat
  | .ticTacToe => (3, 3)
  | .ticTacToe5 => (5, 5)
  | .squava => (5, 5)
  | .connectFour => (6, 7)
  | .gomoku => (15, 15)

/-- The runtime `Game` struct as populated by `loadGame` in `game.go`. -/
structure Game where
  id : Nat
  type : GameType
  name : String
  creator : String
  opponent : Option String
  playerX : String
  playerO : Option String
  status : GameStatus
  winner : Option String
  gameAsset : Option String
  gameBetAmount : Option Nat
  lastMoveAt : Nat
  firstMoveCosts : Option Nat
deriving DecidableEq, Repr

/-- The `swap2State` record of `game.go` (phase stored as a `uint8`,
`NextActor` as an address string). -/
structure Swap2St where
  phase : Nat
  nextActor : String
  initX : Nat
  initO : Nat
  extraX : Nat
  extraO : Nat
deriving DecidableEq, Repr

/-- `gameTimeout` from `main.go`: 7 days in seconds. -/
def gameTimeout : Nat := 7 * 24 * 3600

/-- A reconstructed in-memory board: the `[][]Cell` grid produced by
`reconstructBoard`, with its dimensions. -/
structure GBoard where
  rows : Nat
  cols : Nat
  cell : Int → Int → Cell

/-- The bounds test `r >= 0 && r < rows && c >= 0 && c < cols` used by the
scan loops of `checkPatternGrid` in `game.go`. -/
def inBnds (b : GBoard) (r c : Int) : Bool :=
  decide (0 ≤ r ∧ r < (b.rows : Int) ∧ 0 ≤ c ∧ c < (b.cols : Int))

/-- The full loop condition of the scan loops: in bounds and holding `mark`. -/
def okB (b : GBoard) (mark : Cell) (r c : Int) : Bool :=
  inBnds b r c && decide (b.cell r c = mark)

/-- Propositional form of `okB`. -/
def okP (b : GBoard) (mark : Cell) (r c : Int) : Prop :=
  (0 ≤ r ∧ r < (b.rows : Int) ∧ 0 ≤ c ∧ c < (b.cols : Int)) ∧ b.cell r c = mark

theorem okB_iff {b : GBoard} {m : Cell} {r c : Int} :
    okB b m r c = true ↔ okP b m r c := by
  simp [okB, inBnds, okP, and_assoc]

theorem okB_false_iff {b : GBoard} {m : Cell} {r c : Int} :
    okB b m r c = false ↔ ¬ okP b m r c := by
  rw [← okB_iff]
  cases h : okB b m r c <;> simp

/-- One directional scan loop of `checkPatternGrid`: starting at `(r, c)` and
stepping by `(dr, dc)`, count consecutive cells holding `mark` while in
bounds.  The Go loop is unbounded; `fuel` is instantiated with
`rows + cols`, which the lemmas below prove to be past the last iteration. -/
def scan (b : GBoard) (m : Cell) (dr dc : Int) : Nat → Int → Int → Nat
  | 0, _, _ => 0
  | fuel + 1, r, c =>
      if okB b m r c then scan b m dr dc fuel (r + dr) (c + dc) + 1 else 0

/-- The four direction axes scanned by `checkPatternGrid`:
down, right, down-right, down-left. -/
def dirsList : List (Int × Int) := [(1, 0), (0, 1), (1, 1), (1, -1)]

/-- The loop body of `checkPatternGrid` for one direction axis `d`:
count forward and backward runs, then apply the inexact (`count ≥ winLen`)
or exact (`count = winLen` plus the two beyond-the-end re-checks) test. -/
def dirCheck (b : GBoard) (mark : Cell) (row col : Int) (winLen : Nat)
    (exactLen : Bool) (d : Int × Int) : Bool :=
  let fuel := b.rows + b.cols
  let f := scan b mark d.1 d.2 fuel (row + d.1) (col + d.2)
  let bk := scan b mark (-d.1) (-d.2) fuel (row - d.1) (col - d.2)
  let count := 1 + f + bk
  if exactLen then
    if count = winLen then
      -- the source re-checks the cell one past each end of the line;
      -- both tests are exactly the loop exit conditions
      if okB b mark (row + ((f : Int) + 1) * d.1) (col + ((f : Int) + 1) * d.2) then false
      else if okB b mark (row - ((bk : Int) + 1) * d.1) (col - ((bk : Int) + 1) * d.2) then false
      else true
    else false
  else decide (winLen ≤ count)

/-- `checkPatternGrid` from `game.go`: scan forward and backward from
`(row, col)` in each of the four axes; inexact mode wins on
`count ≥ winLen`, exact mode (the Gomoku overline rule) wins only on
`count = winLen` with no further `mark` cell beyond either end. -/
def checkPatternGrid (b : GBoard) (row col : Int) (winLen : Nat)
    (exactLen : Bool) : Bool :=
  if b.rows = 0 then false else
  let mark := b.cell row col
  if mark = Cell.empty then false else
  dirsList.any (dirCheck b mark row col winLen exactLen)

/-- Bottom-up column scan of `dropDiscGrid` from `game.go`: the fuel
argument `k` scans rows `k-1, k-2, …, 0` and returns the first `Empty`. -/
def dropScanAux (cells : Int → Int → Cell) (col : Nat) : Nat → Option Nat
  | 0 => none
  | k + 1 =>
      if cells (k : Int) (col : Int) = Cell.empty then some k
      else dropScanAux cells col k

/-- `dropDiscGrid` from `game.go`: the landing row of a Connect-Four drop,
or `none` when the column is full (`-1` in the source). -/
def dropDiscGrid (b : GBoard) (col : Nat) : Option Nat :=
  dropScanAux b.cell col b.rows

/-- `setCellGrid` from `game.go`: write one cell of a reconstructed grid. -/
def setCellGrid (b : GBoard) (row col : Nat) (v : Cell) : GBoard :=
  ⟨b.rows, b.cols, fun r c =>
    if r = (row : Int) ∧ c = (col : Int) then v else b.cell r c⟩

/-- `isPlayer` from `game.go`. -/
def isPlayer (g : Game) (addr : String) : Bool :=
  addr = g.playerX || (match g.playerO with
    | some o => addr = o
    | none => false)

/-- `transferPot` from `game.go`: pay `bet` (doubled when an opponent
exists) to one address; the `uint64` doubling can wrap. -/
def transferPot (g : Game) (sendTo : String) : List (String × Nat) :=
  match g.gameAsset, g.gameBetAmount with
  | some _, some b =>
      [(sendTo, (b * (if g.opponent.isSome then 2 else 1)) % 2 ^ 64)]
  | _, _ => []

/-- `splitPot` from `game.go`: return each player their bet on a draw. -/
def splitPot (g : Game) : List (String × Nat) :=
  match g.gameAsset, g.gameBetAmount, g.playerO with
  | some _, some b, some o => [(g.playerX, b), (o, b)]
  | _, _, _ => []

/-- `nextToPlay` from `game.go`: X on even move counts, O on odd. -/
def nextToPlay (moves : Nat) : Cell :=
  if moves % 2 = 0 then Cell.x else Cell.o

/-- Whether a loaded Swap2 record is active (`st != nil && st.Phase != 0`
in `MakeMove` / `ClaimTimeout`). -/
def swap2Active : Option Swap2St → Bool
  | some st => decide (st.phase ≠ 0)
  | none => false

/-- The inline turn computation of `MakeMove` in `main.go` (lines 894-900):
start with X, switch to O when the creator no longer holds the X role, and
force O whenever the stored move count is odd. -/
def currentTurnOf (g : Game) (mvCount : Nat) : Cell :=
  let t0 := if g.creator ≠ g.playerX then Cell.o else Cell.x
  if mvCount % 2 = 1 then Cell.o else t0

/-- The sender-mark determination of `MakeMove` in `main.go`
(lines 903-910). -/
def senderMark (g : Game) (sender : String) : Except String Cell :=
  if sender = g.playerX then .ok Cell.x
  else if g.playerO = some sender then .ok Cell.o
  else .error "invalid player"

/-- Everything `MakeMove` writes or emits on success: the appended move
record, the new move count, and the outcome fields saved to the state
record.  An aborted call produces none of these. -/
structure MoveResult where
  placedRow : Nat
  placedCol : Nat
  mark : Cell
  newCount : Nat
  moveTs : Nat
  moveBy : String
  winner : Option String
  status : GameStatus
  transfers : List (String × Nat)
deriving DecidableEq, Repr

/-- The win length chosen by the `switch g.Type` of `MakeMove`. -/
def winLenOf : GameType → Nat
  | .ticTacToe => 3
  | .ticTacToe5 => 4
  | .squava => 4
  | .connectFour => 4
  | .gomoku => 5

/-- `MakeMove` from `main.go` (the `g_move` entry point), after argument
parsing and state loading: `cells`/`mvCount` are the outputs of
`reconstructBoard`, `sw` the output of `loadSwap2`, `ts` the parsed block
timestamp.  Every `require`/`sdk.Abort` becomes an `.error`. -/
def MakeMove (g : Game) (sw : Option Swap2St) (cells : Int → Int → Cell)
    (mvCount : Nat) (sender : String) (row col : Nat) (ts : Nat) :
    Except String MoveResult :=
  if g.status ≠ GameStatus.inProgress then .error "game not in progress" else
  if ¬ isPlayer g sender then .error "not a player" else
  if g.type = GameType.gomoku ∧ swap2Active sw then
    .error "opening phase in progress; use g_swap" else
  let rows := (boardDimensions g.type).1
  let cols := (boardDimensions g.type).2
  if ¬ (row < rows ∧ col < cols) then .error "invalid move" else
  match senderMark g sender with
  | .error e => .error e
  | .ok mark =>
    if mark ≠ currentTurnOf g mvCount then .error "not your turn" else
    let b : GBoard := ⟨rows, cols, cells⟩
    let placed : Except String Nat :=
      match g.type with
      | .connectFour =>
          match dropDiscGrid b col with
          | none => .error "column full"
          | some r => .ok r
      | _ =>
          if cells (row : Int) (col : Int) ≠ Cell.empty then
            .error "cell occupied"
          else .ok row
    match placed with
    | .error e => .error e
    | .ok placedRow =>
      let b' : GBoard := setCellGrid b placedRow col mark
      let newMv := mvCount + 1
      let exact := decide (g.type = GameType.gomoku)
      if checkPatternGrid b' placedRow col (winLenOf g.type) exact then
        let w := if mark = Cell.x then some g.playerX else g.playerO
        .ok { placedRow := placedRow, placedCol := col, mark := mark,
              newCount := newMv, moveTs := ts, moveBy := sender,
              winner := w, status := .finished,
              transfers :=
                if g.gameBetAmount.isSome then
                  match w with
                  | some ws => transferPot g ws
                  | none => []
                else [] }
      else if g.type = GameType.squava ∧
          checkPatternGrid b' placedRow col 3 exact then
        let w := if mark = Cell.o then some g.playerX else g.playerO
        .ok { placedRow := placedRow, placedCol := col, mark := mark,
              newCount := newMv, moveTs := ts, moveBy := sender,
              winner := w, status := .finished,
              transfers :=
                if g.gameBetAmount.isSome then
                  match w with
                  | some ws => transferPot g ws
                  | none => []
                else [] }
      else if rows * cols ≤ newMv then
        .ok { placedRow := placedRow, placedCol := col, mark := mark,
              newCount := newMv, moveTs := ts, moveBy := sender,
              winner := g.winner, status := .finished,
              transfers := if g.gameBetAmount.isSome then splitPot g else [] }
      else
        .ok { placedRow := placedRow, placedCol := col, mark := mark,
              newCount := newMv, moveTs := ts, moveBy := sender,
              winner := g.winner, status := g.status, transfers := [] }

/-- Everything `ClaimTimeout` writes on success. -/
structure TimeoutRes where
  winner : String
  timedOut : String
  status : GameStatus
  lastMoveAt : Nat
  transfers : List (String × Nat)
  swapCleared : Bool
deriving DecidableEq, Repr

/-- The parity path of `ClaimTimeout` in `main.go` (lines 1071-1099):
derive the due mark from the stored move count and award the win to the
waiting player. -/
def ClaimTimeoutNormal (g : Game) (o : String) (mvCount : Nat)
    (sender : String) (now : Nat) : Except String TimeoutRes :=
  let expect := nextToPlay mvCount
  let winner := if expect = Cell.x then o else g.playerX
  let timedOut := if expect = Cell.x then g.playerX else o
  if sender ≠ winner then .error "only opponent can claim timeout" else
  .ok { winner := winner, timedOut := timedOut, status := .finished,
        lastMoveAt := now,
        transfers := if g.gameBetAmount.isSome then transferPot g winner else [],
        swapCleared := false }

/-- `ClaimTimeout` from `main.go` (the `g_timeout` entry point), after
argument parsing and state loading.  The source builds the
"timeout not reached" message with the current and expiry timestamps
rendered as ISO-8601 text; only the fixed prefix is kept here. -/
def ClaimTimeout (g : Game) (sw : Option Swap2St) (mvCount : Nat)
    (sender : String) (now : Nat) : Except String TimeoutRes :=
  if g.status ≠ GameStatus.inProgress then .error "game is not in progress" else
  match g.playerO with
  | none => .error "cannot timeout without opponent"
  | some o =>
    if ¬ isPlayer g sender then .error "not a player" else
    let timeoutAt := g.lastMoveAt + gameTimeout
    if ¬ (timeoutAt < now) then .error "timeout not reached" else
    match sw with
    | some st =>
        if g.type = GameType.gomoku ∧ st.phase ≠ 0 then
          let winner := if st.nextActor = g.playerX then o else g.playerX
          let timedOut := if st.nextActor = g.playerX then g.playerX else o
          if sender ≠ winner then
            .error "only winning player can claim timeout"
          else
            .ok { winner := winner, timedOut := timedOut, status := .finished,
                  lastMoveAt := now,
                  transfers :=
                    if g.gameBetAmount.isSome then transferPot g winner else [],
                  swapCleared := true }
        else ClaimTimeoutNormal g o mvCount sender now
    | none => ClaimTimeoutNormal g o mvCount sender now

/-- Everything `JoinGame` writes on success: the updated meta/state fields,
the amount drawn from the joiner, the transfers performed, and the Swap2
record initialised for Gomoku.  (The waiting-list removal is modelled
separately at store level.) -/
structure JoinRes where
  opponent : Option String
  playerX : String
  playerO : Option String
  status : GameStatus
  drawn : Nat
  transfers : List (String × Nat)
  swap2 : Option Swap2St
deriving DecidableEq, Repr

/-- `JoinGame` from `main.go` (the `g_join` entry point), after argument
parsing and state loading.  `intent` is the result of
`GetFirstTransferAllow`: the token and the scaled limit
`uint64(ta.Limit * 1000)` of the first `transfer.allow` intent, or `none`
when there is no such intent.  `uint64` sums are taken `% 2 ^ 64` as in Go. -/
def JoinGame (g : Game) (sender : String) (intent : Option (String × Nat)) :
    Except String JoinRes :=
  if g.status ≠ GameStatus.waitingForPlayer then
    .error ("cannot join: state is " ++ Nat.repr (statusCode g.status)) else
  if sender = g.creator then .error "creator cannot join" else
  let settle : Except String (String × Option String × Nat × List (String × Nat)) :=
    match g.gameAsset, g.gameBetAmount with
    | some asset, some baseBet =>
        if 0 < baseBet then
          let fmCost := g.firstMoveCosts.getD 0
          match intent with
          | none => .error "intent missing"
          | some (tok, intentAmt) =>
              if tok ≠ asset then .error "wrong bet token" else
              if intentAmt < baseBet then .error "must cover at least base bet" else
              if 0 < fmCost ∧ (baseBet + fmCost) % 2 ^ 64 ≤ intentAmt then
                .ok (sender, some g.creator, (baseBet + fmCost) % 2 ^ 64,
                     [(g.creator, fmCost)])
              else
                .ok (g.creator, some sender, baseBet, [])
        else .ok (g.playerX, g.playerO, 0, [])
    | _, _ => .ok (g.playerX, g.playerO, 0, [])
  match settle with
  | .error e => .error e
  | .ok (px, po, drawn, transfers) =>
    .ok { opponent := some sender, playerX := px, playerO := po,
          status := .inProgress, drawn := drawn, transfers := transfers,
          swap2 :=
            if g.type = GameType.gomoku then
              some { phase := 1, nextActor := px, initX := 0, initO := 0,
                     extraX := 0, extraO := 0 }
            else none }

/-- `parseU8Fast` from `helpers.go`: decimal accumulation on a `uint8`,
wrapping mod 256 (Go indexes raw bytes; ASCII inputs behave identically). -/
def parseU8Fast (s : String) : Nat :=
  s.data.foldl (fun n c => (n * 10 + (c.toNat % 256 + 256 - 48) % 256) % 256) 0

/-- Everything `SwapMove` writes on success. -/
structure SwapRes where
  playerX : String
  playerO : Option String
  swap2 : Option Swap2St
  appended : Option (Nat × Nat × Nat)
  newCount : Nat
  lastMoveAt : Nat
deriving DecidableEq, Repr

/-- `SwapMove` from `main.go` (the `g_swap` entry point), after argument
parsing and state loading.  `a1 a2 a3` are the three raw argument fields;
`cells`/`mvCount` come from `reconstructBoard`. -/
def SwapMove (g : Game) (sw : Option Swap2St) (cells : Int → Int → Cell)
    (mvCount : Nat) (sender : String) (op a1 a2 a3 : String) (ts : Nat) :
    Except String SwapRes :=
  if g.type ≠ GameType.gomoku then .error "swap only for gomoku" else
  if ¬ (g.opponent.isSome ∧ g.playerO.isSome) then .error "opponent required" else
  if g.status ≠ GameStatus.inProgress then .error "game not in progress" else
  match sw with
  | none => .error "not in opening"
  | some st =>
    if st.phase = 0 then .error "not in opening" else
    if sender ≠ st.nextActor then .error "not your opening turn" else
    let rows := 15
    let cols := 15
    if op = "place" then
      if st.phase ≠ 1 then .error "wrong phase" else
      let row := parseU8Fast a1
      let col := parseU8Fast a2
      let cellv := parseU8Fast a3
      if ¬ (row < rows ∧ col < cols) then .error "invalid coord" else
      if ¬ (cellv = 1 ∨ cellv = 2) then .error "invalid cell" else
      if cells (row : Int) (col : Int) ≠ Cell.empty then .error "cell occupied" else
      let newMv := mvCount + 1
      let counters : Except String (Nat × Nat) :=
        if cellv = 1 then
          if ¬ (st.initX < 2) then .error "too many X in opening"
          else .ok (st.initX + 1, st.initO)
        else
          if ¬ (st.initO < 1) then .error "too many O in opening"
          else .ok (st.initX, st.initO + 1)
      match counters with
      | .error e => .error e
      | .ok (ix, io) =>
        let st' :=
          if ix = 2 ∧ io = 1 then
            { st with initX := ix, initO := io, phase := 2,
                      nextActor := g.playerO.getD st.nextActor }
          else { st with initX := ix, initO := io }
        .ok { playerX := g.playerX, playerO := g.playerO, swap2 := some st',
              appended := some (row, col, cellv), newCount := newMv,
              lastMoveAt := ts }
    else if op = "choose" then
      if st.phase ≠ 2 then .error "wrong phase" else
      if a1 = "swap" then
        .ok { playerX := g.playerO.getD g.playerX, playerO := some g.playerX,
              swap2 := none, appended := none, newCount := mvCount,
              lastMoveAt := g.lastMoveAt }
      else if a1 = "stay" then
        .ok { playerX := g.playerX, playerO := g.playerO, swap2 := none,
              appended := none, newCount := mvCount,
              lastMoveAt := g.lastMoveAt }
      else if a1 = "add" then
        let st' : Swap2St :=
          { st with phase := 3, nextActor := g.playerO.getD st.nextActor,
                    extraX := 0, extraO := 0 }
        .ok { playerX := g.playerX, playerO := g.playerO,
              swap2 := some st',
              appended := none, newCount := mvCount,
              lastMoveAt := g.lastMoveAt }
      else .error "invalid choice"
    else if op = "add" then
      if st.phase ≠ 3 then .error "wrong phase" else
      let row := parseU8Fast a1
      let col := parseU8Fast a2
      let cellv := parseU8Fast a3
      if ¬ (row < rows ∧ col < cols) then .error "invalid coord" else
      if ¬ (cellv = 1 ∨ cellv = 2) then .error "invalid cell" else
      if cells (row : Int) (col : Int) ≠ Cell.empty then .error "cell occupied" else
      let newMv := mvCount + 1
      let counters : Except String (Nat × Nat) :=
        if cellv = 1 then
          if ¬ (st.extraX < 1) then .error "extra X already placed"
          else .ok (st.extraX + 1, st.extraO)
        else
          if ¬ (st.extraO < 1) then .error "extra O already placed"
          else .ok (st.extraX, st.extraO + 1)
      match counters with
      | .error e => .error e
      | .ok (ex, eo) =>
        let st' :=
          if ex = 1 ∧ eo = 1 then
            -- the source sets `st.NextActor = g.Creator` here
            { st with extraX := ex, extraO := eo, phase := 4,
                      nextActor := g.creator }
          else { st with extraX := ex, extraO := eo }
        .ok { playerX := g.playerX, playerO := g.playerO, swap2 := some st',
              appended := some (row, col, cellv), newCount := newMv,
              lastMoveAt := ts }
    else if op = "color" then
      if st.phase ≠ 4 then .error "wrong phase" else
      let ch := parseU8Fast a1
      if ¬ (ch = 1 ∨ ch = 2) then .error "invalid color choice" else
      if ch = 2 then
        .ok { playerX := g.playerO.getD g.playerX, playerO := some g.playerX,
              swap2 := none, appended := none, newCount := mvCount,
              lastMoveAt := g.lastMoveAt }
      else
        .ok { playerX := g.playerX, playerO := g.playerO, swap2 := none,
              appended := none, newCount := mvCount,
              lastMoveAt := g.lastMoveAt }
    else .error "invalid swap op"

/-- Row-major ASCII rendering of a reconstructed grid
(`asciiFromGrid` in `game.go`): digit `'0'`, `'1'` or `'2'` per cell. -/
def asciiFromGrid (b : GBoard) : String :=
  String.mk (((List.range b.rows).map fun r =>
    (List.range b.cols).map fun c =>
      Char.ofNat (48 + (match b.cell (r : Int) (c : Int) with
        | Cell.empty => 0
        | Cell.x => 1
        | Cell.o => 2))).flatten)

/-- `GetGame` from `main.go` (the `g_get` entry point), after state
loading.  `none` models the Go runtime panic: the source appends
`*g.PlayerO` without a nil check, so a game without a `player_o` crashes
instead of producing a view.  The decimal renderings of `appendU64` and
friends are `Nat.repr`; the move count is truncated to `uint16` as in the
source. -/
def GetGame (g : Game) (cells : Int → Int → Cell) (mvCount : Nat) :
    Option String :=
  let rows := (boardDimensions g.type).1
  let cols := (boardDimensions g.type).2
  let turn : Nat := if mvCount % 2 = 1 then 2 else 1
  let meta :=
    Nat.repr g.id ++ "|" ++ Nat.repr (gameTypeCode g.type) ++ "|" ++
    g.name ++ "|" ++ g.creator ++ "|" ++ (g.opponent.getD "") ++ "|" ++
    Nat.repr rows ++ "|" ++ Nat.repr cols ++ "|" ++ Nat.repr turn ++ "|" ++
    Nat.repr (mvCount % 2 ^ 16) ++ "|" ++ Nat.repr (statusCode g.status) ++
    "|" ++ (g.winner.getD "") ++ "|" ++ (g.gameAsset.getD "") ++ "|" ++
    (match g.gameBetAmount with | some b => Nat.repr b | none => "") ++ "|" ++
    Nat.repr g.lastMoveAt ++ "|" ++ g.playerX ++ "|"
  match g.playerO with
  | none => none
  | some o => some (meta ++ o ++ "|" ++ asciiFromGrid ⟨rows, cols, cells⟩)

/-- The host key-value store (`sdk.StateGetObject` view). -/
def Store : Type := String → Option String

/-- `sdk.StateSetObject`. -/
def stateSetObject (s : Store) (k v : String) : Store :=
  fun q => if q = k then some v else s q

/-- `waitingKey` from `game.go`. -/
def waitingKey : String := "g_wait"

/-- Comma split (`strings.Split(s, ",")`) over the character list. -/
def splitCSV : List Char → List (List Char)
  | [] => [[]]
  | c :: rest =>
      let r := splitCSV rest
      if c = ',' then [] :: r
      else
        match r with
        | [] => [[c]]
        | h :: t => (c :: h) :: t

/-- Comma join (`strings.Join(ids, ",")`). -/
def joinCSV : List (List Char) → List Char
  | [] => []
  | [l] => l
  | l :: rest => l ++ ',' :: joinCSV rest

/-- `addGameToWaitingList` from `game.go`: append the id to the CSV stored
under `waitingKey`, or initialise the list. -/
def addGameToWaitingList (s : Store) (gameID : Nat) : Store :=
  match s waitingKey with
  | none => stateSetObject s waitingKey (Nat.repr gameID)
  | some wl =>
      if wl = "" then stateSetObject s waitingKey (Nat.repr gameID)
      else stateSetObject s waitingKey (wl ++ "," ++ Nat.repr gameID)

/-- `removeGameFromWaitingList` from `game.go` (lines 274-292).  Note the
final write: the source stores the filtered list under the key
`*waitingList`, i.e. under the OLD LIST VALUE, not under `waitingKey`. -/
def removeGameFromWaitingList (s : Store) (gameID : Nat) :
    Except String Store :=
  match s waitingKey with
  | none => .error "no waiting games"
  | some wl =>
    if wl = "" then .error "no waiting games" else
    let ids := splitCSV wl.data
    let target := (Nat.repr gameID).data
    let newIds := ids.filter fun idStr => idStr ≠ target
    if ¬ ids.any (fun idStr => idStr = target) then
      .error "game not found in waiting list"
    else
      .ok (stateSetObject s wl (String.mk (joinCSV newIds)))

deriving instance DecidableEq for Except

/-! ### Concrete fixtures used by the closed (counter)example theorems -/

/-- An all-empty reconstructed grid. -/
def cellsEmpty : Int → Int → Cell := fun _ _ => Cell.empty

/-- A tic-tac-toe game in which a first-move purchase at join swapped the
roles: the joiner `bob` holds the X role, the creator `alice` the O role. -/
def gameRoleSwapped : Game :=
  { id := 0, type := .ticTacToe, name := "XOXO", creator := "alice",
    opponent := some "bob", playerX := "bob", playerO := some "alice",
    status := .inProgress, winner := none, gameAsset := none,
    gameBetAmount := none, lastMoveAt := 0, firstMoveCosts := some 200 }

/-- A Gomoku game in its Swap2 opening (roles unswapped). -/
def gomokuOpeningGame : Game :=
  { id := 0, type := .gomoku, name := "G", creator := "alice",
    opponent := some "bob", playerX := "alice", playerO := some "bob",
    status := .inProgress, winner := none, gameAsset := none,
    gameBetAmount := none, lastMoveAt := 0, firstMoveCosts := some 0 }

/-- A Swap2 record in the initial `Opening` phase. -/
def openSwapSt : Swap2St :=
  { phase := 1, nextActor := "alice", initX := 0, initO := 0,
    extraX := 0, extraO := 0 }

/-- A freshly created game: status Waiting, no opponent, no `player_o`. -/
def waitingGame : Game :=
  { id := 0, type := .ticTacToe, name := "XOXO", creator := "alice",
    opponent := none, playerX := "alice", playerO := none,
    status := .waitingForPlayer, winner := none, gameAsset := none,
    gameBetAmount := none, lastMoveAt := 100, firstMoveCosts := some 0 }

/-- The empty host store. -/
def emptyStore : Store := fun _ => none

/-- The store after creating game 0 (waiting list holds exactly "0"). -/
def storeAfterCreate : Store := addGameToWaitingList emptyStore 0

/-- A Gomoku game after a first-move purchase at join: the joiner `bob` is
`player_x`, the creator `alice` is `player_o`. -/
def fmcGomokuGame : Game :=
  { id := 0, type := .gomoku, name := "G", creator := "alice",
    opponent := some "bob", playerX := "bob", playerO := some "alice",
    status := .inProgress, winner := none, gameAsset := some "HIVE",
    gameBetAmount := some 1000, lastMoveAt := 0, firstMoveCosts := some 200 }

/-- Swap2 state of `fmcGomokuGame` during `ExtraPlace`: the extra X stone is
down, the extra O stone is about to be placed by `alice` (the O role). -/
def extraPlaceSt : Swap2St :=
  { phase := 3, nextActor := "alice", initX := 2, initO := 1,
    extraX := 1, extraO := 0 }

/-- Claim C1 (code bug).  The claim says the Move entry point derives the
required mark from move-count parity alone (X when `MoveCount` is even) for
all role assignments, including `player_x ≠ creator`.  The source instead
adds `if g.Creator != g.PlayerX { currentTurn = O }`, so in
`gameRoleSwapped` (roles swapped by a first-move purchase, move count 0,
even) the X-role player `bob` is rejected with "not your turn" while the
O-role player `alice` is accepted — O is required on every even move count,
contradicting the parity rule stated in the packages own header comment. -/
theorem C1_parity_turn_code_bug :
    MakeMove gameRoleSwapped none cellsEmpty 0 "bob" 0 0 5
      = .error "not your turn" ∧
    (MakeMove gameRoleSwapped none cellsEmpty 0 "alice" 0 0 5).toOption.isSome
      = true := by
  constructor
  · decide
  · decide

/-- Claim C6 (code bug).  After creating game 0 the waiting list under
`waitingKey` is "0"; `removeGameFromWaitingList` (called by a successful
join) stores the filtered list under the OLD LIST VALUE "0" instead of
under `waitingKey`, so the waiting-list key still yields the id of the
no-longer-waiting game, violating the membership invariant. -/
theorem C6_waiting_list_removal_code_bug :
    (removeGameFromWaitingList storeAfterCreate 0).map (fun s => s waitingKey)
      = .ok (some "0") ∧
    (removeGameFromWaitingList storeAfterCreate 0).map (fun s => s "0")
      = .ok (some "") := by
  constructor
  · decide
  · decide

/-- Claim C7 (code bug).  In `fmcGomokuGame` the first-move purchase made
the joiner `bob` the X role.  When the O role `alice` completes the
`ExtraPlace` phase, the source sets `st.NextActor = g.Creator`, handing the
color choice to `alice` (= `player_o`), not to `player_x` = `bob` as the
claim (and the Swap2 protocol) requires. -/
theorem C7_color_choice_actor_code_bug :
    (SwapMove fmcGomokuGame (some extraPlaceSt) cellsEmpty 4 "alice"
        "add" "9" "8" "2" 50).map
        (fun r => r.swap2.map fun s => (s.phase, s.nextActor))
      = .ok (some (4, "alice")) ∧
    fmcGomokuGame.playerX = "bob" := by
  constructor
  · decide
  · decide

/-- Claim C8, counterexample.  The claim asserts that with an active Swap2
opening EVERY sender is rejected with the opening-in-progress error; a
sender who is not a player is rejected earlier with "not a player". -/
theorem C8_any_sender_counterexample :
    MakeMove gomokuOpeningGame (some openSwapSt) cellsEmpty 0 "mallory" 7 7 5
      = .error "not a player" ∧
    MakeMove gomokuOpeningGame (some openSwapSt) cellsEmpty 0 "mallory" 7 7 5
      ≠ .error "opening phase in progress; use g_swap" := by
  constructor
  · decide
  · decide

/-- Claim C8, amended: with an active Swap2 opening, every call to the
normal move entry point by a sender who is one of the games players aborts
with the opening-in-progress error (and, the result being an abort, none of
the move records, move count, board or state are written). -/
theorem C8_swap2_blocks_player_moves (g : Game) (st : Swap2St)
    (cells : Int → Int → Cell) (mvCount : Nat) (sender : String)
    (row col ts : Nat)
    (hty : g.type = GameType.gomoku) (hst : g.status = GameStatus.inProgress)
    (hph : st.phase ≠ 0) (hpl : isPlayer g sender = true) :
    MakeMove g (some st) cells mvCount sender row col ts
      = .error "opening phase in progress; use g_swap" := by
  simp [MakeMove, hst, hty, hpl, swap2Active, hph]

/-- Witness for `C8_swap2_blocks_player_moves` at a concrete game. -/
theorem C8_swap2_blocks_player_moves_witness :
    gomokuOpeningGame.type = GameType.gomoku ∧
    gomokuOpeningGame.status = GameStatus.inProgress ∧
    openSwapSt.phase ≠ 0 ∧
    isPlayer gomokuOpeningGame "alice" = true ∧
    MakeMove gomokuOpeningGame (some openSwapSt) cellsEmpty 0 "alice" 7 7 5
      = .error "opening phase in progress; use g_swap" :=
  ⟨rfl, rfl, by decide, by decide,
   C8_swap2_blocks_player_moves gomokuOpeningGame openSwapSt cellsEmpty 0
     "alice" 7 7 5 rfl rfl (by decide) (by decide)⟩

/-- Claim C10 (code bug).  `GetGame` appends `*g.PlayerO` without a nil
check, so on a game still in Waiting (no `player_o`) the call crashes
(modelled as `none`) instead of rendering the missing field as an empty
string between separators. -/
theorem C10_get_crashes_on_waiting_game :
    GetGame waitingGame cellsEmpty 0 = none := by
  rfl

/-! ### Semantics of the scan loops

The Go scan loops of `checkPatternGrid` are unbounded; the following lemmas
show that the fuelled `scan` with fuel `rows + cols` computes exactly the
length of the maximal consecutive `mark` run, for every direction the
contract uses (one coordinate step of `±1`). -/

/-- A direction along which a scan loop must leave the board:
one of the two components steps by `±1`. -/
def adm (dr dc : Int) : Prop :=
  dr = 1 ∨ dr = -1 ∨ (dr = 0 ∧ (dc = 1 ∨ dc = -1))

theorem scan_eq_of (b : GBoard) (m : Cell) (dr dc : Int) :
    ∀ (n fuel : Nat) (r c : Int),
      (∀ i : Nat, i < n →
        okB b m (r + (i : Int) * dr) (c + (i : Int) * dc) = true) →
      okB b m (r + (n : Int) * dr) (c + (n : Int) * dc) = false →
      n ≤ fuel →
      scan b m dr dc fuel r c = n := by
  intro n
  induction n with
  | zero =>
      intro fuel r c _ hstop _
      simp only [Nat.cast_zero, zero_mul, add_zero] at hstop
      cases fuel with
      | zero => rfl
      | succ f => simp [scan, hstop]
  | succ n ih =>
      intro fuel r c hok hstop hle
      cases fuel with
      | zero => omega
      | succ f =>
          have h0 : okB b m r c = true := by
            have := hok 0 (Nat.succ_pos n)
            simpa using this
          have hstep : scan b m dr dc (f + 1) r c
              = scan b m dr dc f (r + dr) (c + dc) + 1 := by
            simp [scan, h0]
          rw [hstep]
          have hok' : ∀ i : Nat, i < n →
              okB b m ((r + dr) + (i : Int) * dr) ((c + dc) + (i : Int) * dc)
                = true := by
            intro i hi
            have := hok (i + 1) (by omega)
            have e1 : r + ((i : Int) + 1) * dr = (r + dr) + (i : Int) * dr := by
              ring
            have e2 : c + ((i : Int) + 1) * dc = (c + dc) + (i : Int) * dc := by
              ring
            push_cast at this
            rw [e1, e2] at this
            exact this
          have hstop' :
              okB b m ((r + dr) + (n : Int) * dr) ((c + dc) + (n : Int) * dc)
                = false := by
            have e1 : r + ((n : Int) + 1) * dr = (r + dr) + (n : Int) * dr := by
              ring
            have e2 : c + ((n : Int) + 1) * dc = (c + dc) + (n : Int) * dc := by
              ring
            push_cast at hstop
            rw [e1, e2] at hstop
            exact hstop
          rw [ih f (r + dr) (c + dc) hok' hstop' (by omega)]

theorem exists_scan_stop (b : GBoard) (m : Cell) {dr dc : Int}
    (h : adm dr dc) (r c : Int) :
    ∃ n : Nat, n ≤ b.rows + b.cols ∧
      okB b m (r + (n : Int) * dr) (c + (n : Int) * dc) = false := by
  rcases Bool.eq_false_or_eq_true (okB b m r c) with hT | hF
  · have hp := okB_iff.mp hT
    obtain ⟨⟨pr0, pr1, pc0, pc1⟩, -⟩ := hp
    refine ⟨b.rows + b.cols, le_refl _, okB_false_iff.mpr ?_⟩
    intro hcon
    obtain ⟨⟨hr0, hr1, hc0, hc1⟩, -⟩ := hcon
    rcases h with h | h | ⟨h, hdc⟩
    · subst h; push_cast at hr0 hr1; omega
    · subst h; push_cast at hr0 hr1; omega
    · subst h
      rcases hdc with hdc | hdc <;> subst hdc <;> push_cast at hc0 hc1 <;> omega
  · exact ⟨0, Nat.zero_le _, by simpa using hF⟩

theorem scan_char (b : GBoard) (m : Cell) {dr dc : Int}
    (h : adm dr dc) (r c : Int) :
    (∀ i : Nat, i < scan b m dr dc (b.rows + b.cols) r c →
        okB b m (r + (i : Int) * dr) (c + (i : Int) * dc) = true) ∧
    okB b m
      (r + (scan b m dr dc (b.rows + b.cols) r c : Int) * dr)
      (c + (scan b m dr dc (b.rows + b.cols) r c : Int) * dc) = false := by
  obtain ⟨n0, hn0K, hn0⟩ := exists_scan_stop b m h r c
  have hex : ∃ n : Nat,
      okB b m (r + (n : Int) * dr) (c + (n : Int) * dc) = false := ⟨n0, hn0⟩
  set n := Nat.find hex with hn
  have hstop := Nat.find_spec hex
  have hmin : ∀ i : Nat, i < n →
      okB b m (r + (i : Int) * dr) (c + (i : Int) * dc) = true := by
    intro i hi
    have := Nat.find_min hex hi
    rcases Bool.eq_false_or_eq_true
        (okB b m (r + (i : Int) * dr) (c + (i : Int) * dc)) with hT | hF
    · exact hT
    · exact absurd hF this
  have hnK : n ≤ b.rows + b.cols := le_trans (Nat.find_le hn0) hn0K
  have hscan : scan b m dr dc (b.rows + b.cols) r c = n :=
    scan_eq_of b m dr dc n (b.rows + b.cols) r c hmin hstop hnK
  rw [hscan]
  exact ⟨hmin, hstop⟩

/-- Two first-failure indices of the same boolean sequence agree. -/
theorem stop_unique {p : Nat → Bool} {n m : Nat}
    (hn1 : ∀ i, i < n → p i = true) (hn2 : p n = false)
    (hm1 : ∀ i, i < m → p i = true) (hm2 : p m = false) : n = m := by
  rcases Nat.lt_trichotomy n m with h | h | h
  · exact absurd (hm1 n h) (by simp [hn2])
  · exact h
  · exact absurd (hn1 m h) (by simp [hm2])

theorem le_scan (b : GBoard) (m : Cell) (dr dc : Int) :
    ∀ (n fuel : Nat) (r c : Int),
      (∀ i : Nat, i < n →
        okB b m (r + (i : Int) * dr) (c + (i : Int) * dc) = true) →
      n ≤ fuel → n ≤ scan b m dr dc fuel r c := by
  intro n
  induction n with
  | zero => intro fuel r c _ _; exact Nat.zero_le _
  | succ n ih =>
      intro fuel r c hok hle
      cases fuel with
      | zero => omega
      | succ fl =>
          have h0 : okB b m r c = true := by
            simpa using hok 0 (Nat.succ_pos n)
          have hok' : ∀ i : Nat, i < n →
              okB b m ((r + dr) + (i : Int) * dr) ((c + dc) + (i : Int) * dc)
                = true := by
            intro i hi
            have := hok (i + 1) (by omega)
            have e1 : r + ((i : Int) + 1) * dr = (r + dr) + (i : Int) * dr := by
              ring
            have e2 : c + ((i : Int) + 1) * dc = (c + dc) + (i : Int) * dc := by
              ring
            push_cast at this
            rw [e1, e2] at this
            exact this
          have := ih fl (r + dr) (c + dc) hok' (by omega)
          simp [scan, h0]
          omega

/-! ### Specification-side run predicates (the claims' language)

`runThrough b m row col d f bk` says: every cell from `bk` steps backward to
`f` steps forward of `(row, col)` along axis `d` is on the board and holds
`m`.  `maxRunExact` adds that the cell one past each end is off-board or not
`m` — a maximal run of exactly `L` through the placed stone. -/

def runThrough (b : GBoard) (m : Cell) (row col : Int) (d : Int × Int)
    (f bk : Nat) : Prop :=
  ∀ t : Int, -(bk : Int) ≤ t → t ≤ (f : Int) →
    okP b m (row + t * d.1) (col + t * d.2)

def maxRunExact (b : GBoard) (m : Cell) (row col : Int) (d : Int × Int)
    (L : Nat) : Prop :=
  ∃ f bk : Nat, f + bk + 1 = L ∧ runThrough b m row col d f bk ∧
    ¬ okP b m (row + ((f : Int) + 1) * d.1) (col + ((f : Int) + 1) * d.2) ∧
    ¬ okP b m (row - ((bk : Int) + 1) * d.1) (col - ((bk : Int) + 1) * d.2)

def hasRunAtLeast (b : GBoard) (m : Cell) (row col : Int) (L : Nat) : Prop :=
  ∃ d ∈ dirsList, ∃ f bk : Nat, L ≤ f + bk + 1 ∧ runThrough b m row col d f bk

instance (dr dc : Int) : Decidable (adm dr dc) := by
  unfold adm; infer_instance

/-- Each scan axis, and its reverse, steps one coordinate by `±1`. -/
theorem dirs_adm : ∀ d ∈ dirsList, adm d.1 d.2 ∧ adm (-d.1) (-d.2) := by
  decide

theorem scanFwd_prop (b : GBoard) (m : Cell) (row col : Int) (d : Int × Int)
    (ha : adm d.1 d.2) :
    (∀ i : Nat,
        i < scan b m d.1 d.2 (b.rows + b.cols) (row + d.1) (col + d.2) →
        okP b m (row + ((i : Int) + 1) * d.1) (col + ((i : Int) + 1) * d.2)) ∧
    ¬ okP b m
        (row + ((scan b m d.1 d.2 (b.rows + b.cols) (row + d.1) (col + d.2) : Int) + 1) * d.1)
        (col + ((scan b m d.1 d.2 (b.rows + b.cols) (row + d.1) (col + d.2) : Int) + 1) * d.2) := by
  obtain ⟨h1, h2⟩ := scan_char b m ha (row + d.1) (col + d.2)
  constructor
  · intro i hi
    have hh := h1 i hi
    have e1 : (row + d.1) + (i : Int) * d.1 = row + ((i : Int) + 1) * d.1 := by
      ring
    have e2 : (col + d.2) + (i : Int) * d.2 = col + ((i : Int) + 1) * d.2 := by
      ring
    rw [e1, e2] at hh
    exact okB_iff.mp hh
  · rw [show (row + d.1) + (scan b m d.1 d.2 (b.rows + b.cols) (row + d.1) (col + d.2) : Int) * d.1
          = row + ((scan b m d.1 d.2 (b.rows + b.cols) (row + d.1) (col + d.2) : Int) + 1) * d.1
        from by ring,
        show (col + d.2) + (scan b m d.1 d.2 (b.rows + b.cols) (row + d.1) (col + d.2) : Int) * d.2
          = col + ((scan b m d.1 d.2 (b.rows + b.cols) (row + d.1) (col + d.2) : Int) + 1) * d.2
        from by ring] at h2
    exact okB_false_iff.mp h2

theorem scanBwd_prop (b : GBoard) (m : Cell) (row col : Int) (d : Int × Int)
    (ha : adm (-d.1) (-d.2)) :
    (∀ i : Nat,
        i < scan b m (-d.1) (-d.2) (b.rows + b.cols) (row - d.1) (col - d.2) →
        okP b m (row - ((i : Int) + 1) * d.1) (col - ((i : Int) + 1) * d.2)) ∧
    ¬ okP b m
        (row - ((scan b m (-d.1) (-d.2) (b.rows + b.cols) (row - d.1) (col - d.2) : Int) + 1) * d.1)
        (col - ((scan b m (-d.1) (-d.2) (b.rows + b.cols) (row - d.1) (col - d.2) : Int) + 1) * d.2) := by
  obtain ⟨h1, h2⟩ := scan_char b m ha (row - d.1) (col - d.2)
  constructor
  · intro i hi
    have hh := h1 i hi
    have e1 : (row - d.1) + (i : Int) * (-d.1) = row - ((i : Int) + 1) * d.1 := by
      ring
    have e2 : (col - d.2) + (i : Int) * (-d.2) = col - ((i : Int) + 1) * d.2 := by
      ring
    rw [e1, e2] at hh
    exact okB_iff.mp hh
  · rw [show (row - d.1) + (scan b m (-d.1) (-d.2) (b.rows + b.cols) (row - d.1) (col - d.2) : Int) * (-d.1)
          = row - ((scan b m (-d.1) (-d.2) (b.rows + b.cols) (row - d.1) (col - d.2) : Int) + 1) * d.1
        from by ring,
        show (col - d.2) + (scan b m (-d.1) (-d.2) (b.rows + b.cols) (row - d.1) (col - d.2) : Int) * (-d.2)
          = col - ((scan b m (-d.1) (-d.2) (b.rows + b.cols) (row - d.1) (col - d.2) : Int) + 1) * d.2
        from by ring] at h2
    exact okB_false_iff.mp h2

/-- A consecutive run that stays on the board is no longer than
`rows + cols`, for any direction a scan loop uses. -/
theorem run_le_fuel (b : GBoard) (m : Cell) {dr dc : Int} (ha : adm dr dc)
    {row col : Int} {f : Nat}
    (hok : ∀ i : Nat, i < f →
      okP b m (row + ((i : Int) + 1) * dr) (col + ((i : Int) + 1) * dc)) :
    f ≤ b.rows + b.cols := by
  rcases Nat.eq_zero_or_pos f with h0 | hpos
  · omega
  · have h1 := hok 0 hpos
    have h2 := hok (f - 1) (by omega)
    have hf : ((f - 1 : Nat) : Int) + 1 = (f : Int) := by
      push_cast [hpos]
      omega
    rw [hf] at h2
    obtain ⟨⟨a0, a1, a2, a3⟩, -⟩ := h1
    obtain ⟨⟨c0, c1, c2, c3⟩, -⟩ := h2
    rcases ha with h | h | ⟨h, hdc⟩
    · subst h
      simp only [mul_one, zero_add, Int.zero_mul] at a0 a1 c0 c1
      omega
    · subst h
      simp only [mul_neg_one, zero_add] at a0 a1 c0 c1
      omega
    · subst h
      rcases hdc with hdc | hdc <;> subst hdc <;>
        simp only [mul_one, mul_neg_one, zero_add] at a2 a3 c2 c3 <;> omega

theorem dirCheck_exact_iff (b : GBoard) (m : Cell) (row col : Int) (L : Nat)
    (d : Int × Int) (ha1 : adm d.1 d.2) (ha2 : adm (-d.1) (-d.2))
    (hc : okP b m row col) :
    dirCheck b m row col L true d = true ↔ maxRunExact b m row col d L := by
  obtain ⟨hf1, hf2⟩ := scanFwd_prop b m row col d ha1
  obtain ⟨hb1, hb2⟩ := scanBwd_prop b m row col d ha2
  set F := scan b m d.1 d.2 (b.rows + b.cols) (row + d.1) (col + d.2) with hF
  set B := scan b m (-d.1) (-d.2) (b.rows + b.cols) (row - d.1) (col - d.2)
    with hB
  have hdead1 : okB b m (row + ((F : Int) + 1) * d.1)
      (col + ((F : Int) + 1) * d.2) = false := okB_false_iff.mpr hf2
  have hdead2 : okB b m (row - ((B : Int) + 1) * d.1)
      (col - ((B : Int) + 1) * d.2) = false := okB_false_iff.mpr hb2
  have hbody : dirCheck b m row col L true d
      = (if 1 + F + B = L then true else false) := by
    simp only [dirCheck, ← hF, ← hB, if_true]
    by_cases hL : 1 + F + B = L
    · simp [hL, hdead1, hdead2]
    · simp [hL]
  rw [hbody]
  constructor
  · intro ht
    have hL : 1 + F + B = L := by
      by_cases h : 1 + F + B = L
      · exact h
      · simp [h] at ht
    refine ⟨F, B, by omega, ?_, hf2, hb2⟩
    intro t htl htu
    rcases lt_trichotomy t 0 with hneg | h0 | hpos
    · have hi : (((-t - 1).toNat : Int)) = -t - 1 := by omega
      have hiB : (-t - 1).toNat < B := by omega
      have hh := hb1 _ hiB
      rw [show row - (((-t - 1).toNat : Int) + 1) * d.1 = row + t * d.1 from by
            rw [hi]; ring,
          show col - (((-t - 1).toNat : Int) + 1) * d.2 = col + t * d.2 from by
            rw [hi]; ring] at hh
      exact hh
    · subst h0
      simpa using hc
    · have hi : (((t - 1).toNat : Int)) = t - 1 := by omega
      have hiF : (t - 1).toNat < F := by omega
      have hh := hf1 _ hiF
      rw [show row + (((t - 1).toNat : Int) + 1) * d.1 = row + t * d.1 from by
            rw [hi]; ring,
          show col + (((t - 1).toNat : Int) + 1) * d.2 = col + t * d.2 from by
            rw [hi]; ring] at hh
      exact hh
  · rintro ⟨f, bk, hsum, hrun, hend1, hend2⟩
    have hFf : F = f := by
      refine stop_unique
        (p := fun i =>
          okB b m (row + ((i : Int) + 1) * d.1) (col + ((i : Int) + 1) * d.2))
        (fun i hi => okB_iff.mpr (hf1 i hi)) (okB_false_iff.mpr hf2)
        (fun i hi => okB_iff.mpr ?_) (okB_false_iff.mpr hend1)
      exact hrun ((i : Int) + 1) (by omega) (by omega)
    have hBbk : B = bk := by
      refine stop_unique
        (p := fun i =>
          okB b m (row - ((i : Int) + 1) * d.1) (col - ((i : Int) + 1) * d.2))
        (fun i hi => okB_iff.mpr (hb1 i hi)) (okB_false_iff.mpr hb2)
        (fun i hi => okB_iff.mpr ?_) (okB_false_iff.mpr hend2)
      have hh := hrun (-((i : Int) + 1)) (by omega) (by omega)
      rw [show row + -((i : Int) + 1) * d.1 = row - ((i : Int) + 1) * d.1 from by
            ring,
          show col + -((i : Int) + 1) * d.2 = col - ((i : Int) + 1) * d.2 from by
            ring] at hh
      exact hh
    simp [hFf, hBbk]
    omega

theorem dirCheck_inexact_iff (b : GBoard) (m : Cell) (row col : Int) (L : Nat)
    (d : Int × Int) (ha1 : adm d.1 d.2) (ha2 : adm (-d.1) (-d.2))
    (hc : okP b m row col) :
    dirCheck b m row col L false d = true ↔
      ∃ f bk : Nat, L ≤ f + bk + 1 ∧ runThrough b m row col d f bk := by
  obtain ⟨hf1, hf2⟩ := scanFwd_prop b m row col d ha1
  obtain ⟨hb1, hb2⟩ := scanBwd_prop b m row col d ha2
  set F := scan b m d.1 d.2 (b.rows + b.cols) (row + d.1) (col + d.2) with hF
  set B := scan b m (-d.1) (-d.2) (b.rows + b.cols) (row - d.1) (col - d.2)
    with hB
  have hbody : dirCheck b m row col L false d = decide (L ≤ 1 + F + B) := by
    simp only [dirCheck, ← hF, ← hB]
    simp
  rw [hbody]
  constructor
  · intro ht
    have hL : L ≤ 1 + F + B := of_decide_eq_true ht
    refine ⟨F, B, by omega, ?_⟩
    intro t htl htu
    rcases lt_trichotomy t 0 with hneg | h0 | hpos
    · have hi : (((-t - 1).toNat : Int)) = -t - 1 := by omega
      have hiB : (-t - 1).toNat < B := by omega
      have hh := hb1 _ hiB
      rw [show row - (((-t - 1).toNat : Int) + 1) * d.1 = row + t * d.1 from by
            rw [hi]; ring,
          show col - (((-t - 1).toNat : Int) + 1) * d.2 = col + t * d.2 from by
            rw [hi]; ring] at hh
      exact hh
    · subst h0
      simpa using hc
    · have hi : (((t - 1).toNat : Int)) = t - 1 := by omega
      have hiF : (t - 1).toNat < F := by omega
      have hh := hf1 _ hiF
      rw [show row + (((t - 1).toNat : Int) + 1) * d.1 = row + t * d.1 from by
            rw [hi]; ring,
          show col + (((t - 1).toNat : Int) + 1) * d.2 = col + t * d.2 from by
            rw [hi]; ring] at hh
      exact hh
  · rintro ⟨f, bk, hL, hrun⟩
    have hokf : ∀ i : Nat, i < f →
        okB b m (row + ((i : Int) + 1) * d.1) (col + ((i : Int) + 1) * d.2)
          = true := by
      intro i hi
      exact okB_iff.mpr (hrun ((i : Int) + 1) (by omega) (by omega))
    have hokb : ∀ i : Nat, i < bk →
        okB b m (row - ((i : Int) + 1) * d.1) (col - ((i : Int) + 1) * d.2)
          = true := by
      intro i hi
      refine okB_iff.mpr ?_
      have hh := hrun (-((i : Int) + 1)) (by omega) (by omega)
      rw [show row + -((i : Int) + 1) * d.1 = row - ((i : Int) + 1) * d.1 from by
            ring,
          show col + -((i : Int) + 1) * d.2 = col - ((i : Int) + 1) * d.2 from by
            ring] at hh
      exact hh
    have hfF : f ≤ F := by
      have hfuel : f ≤ b.rows + b.cols := run_le_fuel b m ha1
        (fun i hi => okB_iff.mp (hokf i hi))
      refine le_scan b m d.1 d.2 f (b.rows + b.cols) (row + d.1) (col + d.2)
        ?_ hfuel
      intro i hi
      have := hokf i hi
      rw [show row + ((i : Int) + 1) * d.1 = (row + d.1) + (i : Int) * d.1 from
            by ring,
          show col + ((i : Int) + 1) * d.2 = (col + d.2) + (i : Int) * d.2 from
            by ring] at this
      exact this
    have hbkB : bk ≤ B := by
      have hok' : ∀ i : Nat, i < bk →
          okP b m (row + ((i : Int) + 1) * (-d.1))
            (col + ((i : Int) + 1) * (-d.2)) := by
        intro i hi
        have := okB_iff.mp (hokb i hi)
        rw [show row - ((i : Int) + 1) * d.1 = row + ((i : Int) + 1) * (-d.1)
              from by ring,
            show col - ((i : Int) + 1) * d.2 = col + ((i : Int) + 1) * (-d.2)
              from by ring] at this
        exact this
      have hfuel : bk ≤ b.rows + b.cols := run_le_fuel b m ha2 hok'
      refine le_scan b m (-d.1) (-d.2) bk (b.rows + b.cols) (row - d.1)
        (col - d.2) ?_ hfuel
      intro i hi
      refine okB_iff.mpr ?_
      have := hok' i hi
      rw [show row + ((i : Int) + 1) * (-d.1) = (row - d.1) + (i : Int) * (-d.1)
            from by ring,
          show col + ((i : Int) + 1) * (-d.2) = (col - d.2) + (i : Int) * (-d.2)
            from by ring] at this
      exact this
    exact decide_eq_true_eq.mpr (by omega)

theorem checkPattern_exact_iff (b : GBoard) (row col : Int) (L : Nat)
    (hr : b.rows ≠ 0)
    (hin : 0 ≤ row ∧ row < (b.rows : Int) ∧ 0 ≤ col ∧ col < (b.cols : Int))
    (hm : b.cell row col ≠ Cell.empty) :
    checkPatternGrid b row col L true = true ↔
      ∃ d ∈ dirsList, maxRunExact b (b.cell row col) row col d L := by
  have hc : okP b (b.cell row col) row col := ⟨hin, rfl⟩
  simp only [checkPatternGrid, if_neg hr, if_neg hm, List.any_eq_true]
  constructor
  · rintro ⟨d, hd, hchk⟩
    obtain ⟨ha1, ha2⟩ := dirs_adm d hd
    exact ⟨d, hd, (dirCheck_exact_iff b _ row col L d ha1 ha2 hc).mp hchk⟩
  · rintro ⟨d, hd, hrun⟩
    obtain ⟨ha1, ha2⟩ := dirs_adm d hd
    exact ⟨d, hd, (dirCheck_exact_iff b _ row col L d ha1 ha2 hc).mpr hrun⟩

theorem checkPattern_inexact_iff (b : GBoard) (row col : Int) (L : Nat)
    (hr : b.rows ≠ 0)
    (hin : 0 ≤ row ∧ row < (b.rows : Int) ∧ 0 ≤ col ∧ col < (b.cols : Int))
    (hm : b.cell row col ≠ Cell.empty) :
    checkPatternGrid b row col L false = true ↔
      hasRunAtLeast b (b.cell row col) row col L := by
  have hc : okP b (b.cell row col) row col := ⟨hin, rfl⟩
  simp only [checkPatternGrid, if_neg hr, if_neg hm, List.any_eq_true,
    hasRunAtLeast]
  constructor
  · rintro ⟨d, hd, hchk⟩
    obtain ⟨ha1, ha2⟩ := dirs_adm d hd
    exact ⟨d, hd, (dirCheck_inexact_iff b _ row col L d ha1 ha2 hc).mp hchk⟩
  · rintro ⟨d, hd, hrun⟩
    obtain ⟨ha1, ha2⟩ := dirs_adm d hd
    exact ⟨d, hd, (dirCheck_inexact_iff b _ row col L d ha1 ha2 hc).mpr hrun⟩

/-- Claim C2.  For a 15×15 Gomoku board and a just-placed stone at
`(row, col)`, the detector with `win_len = 5`, `exact_len = true` returns
true iff one of the four axes through the stone carries a maximal run of
exactly five cells of the stones mark: five consecutive `mark` cells
containing `(row, col)`, with the cell one past each end off-board or not
`mark`.  An overline — a maximal run of six or more through the stone —
has `count ≠ 5` in its axis, so it never makes that axis a witness. -/
theorem C2_gomoku_exact_win_iff (b : GBoard) (row col : Int)
    (hrows : b.rows = 15) (hcols : b.cols = 15)
    (hr0 : 0 ≤ row) (hr1 : row < 15) (hc0 : 0 ≤ col) (hc1 : col < 15)
    (hm : b.cell row col ≠ Cell.empty) :
    checkPatternGrid b row col 5 true = true ↔
      ∃ d ∈ dirsList, maxRunExact b (b.cell row col) row col d 5 := by
  refine checkPattern_exact_iff b row col 5 ?_ ?_ hm
  · rw [hrows]; omega
  · refine ⟨hr0, ?_, hc0, ?_⟩
    · rw [hrows]; exact_mod_cast hr1
    · rw [hcols]; exact_mod_cast hc1

/-- A 15×15 board holding a horizontal run of five X at row 7,
columns 5–9. -/
def cellsFiveRow : Int → Int → Cell := fun r c =>
  if r = 7 ∧ 5 ≤ c ∧ c < 10 then Cell.x else Cell.empty

/-- The board of `cellsFiveRow` packaged with its Gomoku dimensions. -/
def gomokuBoard : GBoard := ⟨15, 15, cellsFiveRow⟩

/-- Witness for `C2_gomoku_exact_win_iff` at a concrete board and stone. -/
theorem C2_gomoku_exact_win_iff_witness :
    gomokuBoard.rows = 15 ∧ gomokuBoard.cols = 15 ∧
    (0 : Int) ≤ 7 ∧ (7 : Int) < 15 ∧ (0 : Int) ≤ 7 ∧ (7 : Int) < 15 ∧
    gomokuBoard.cell 7 7 ≠ Cell.empty ∧
    (checkPatternGrid gomokuBoard 7 7 5 true = true ↔
      ∃ d ∈ dirsList, maxRunExact gomokuBoard (gomokuBoard.cell 7 7) 7 7 d 5) :=
  ⟨rfl, rfl, by decide, by decide, by decide, by decide, by decide,
   C2_gomoku_exact_win_iff gomokuBoard 7 7 rfl rfl (by decide) (by decide)
     (by decide) (by decide) (by decide)⟩

/-- The mark the Move entry point assigns to a sender who passes the
`senderMark` check: X for the X-role player, otherwise O. -/
def placerMark (g : Game) (sender : String) : Cell :=
  if sender = g.playerX then Cell.x else Cell.o

/-- Claim C3.  For every Squava game and every placement the entry point
accepts: completing a run of at least four of the placers mark makes the
placer the winner; otherwise completing a run of at least three makes the
opponent the winner.  The four-check is evaluated first, so a placement
making both a four and a three wins for the placer (the first conjunct has
no three-run side condition). -/
theorem C3_squava_outcomes (g : Game) (cells : Int → Int → Cell)
    (mvCount : Nat) (sender : String) (row col ts : Nat) (o : String)
    (res : MoveResult)
    (hty : g.type = GameType.squava) (ho : g.playerO = some o)
    (hok : MakeMove g none cells mvCount sender row col ts = .ok res) :
    (hasRunAtLeast (setCellGrid ⟨5, 5, cells⟩ row col (placerMark g sender))
        (placerMark g sender) row col 4 →
      res.winner = some sender ∧ res.status = GameStatus.finished) ∧
    ((¬ hasRunAtLeast (setCellGrid ⟨5, 5, cells⟩ row col (placerMark g sender))
          (placerMark g sender) row col 4) ∧
      hasRunAtLeast (setCellGrid ⟨5, 5, cells⟩ row col (placerMark g sender))
        (placerMark g sender) row col 3 →
      res.winner = some (if sender = g.playerX then o else g.playerX) ∧
      res.status = GameStatus.finished) := by
  simp only [MakeMove, hty, boardDimensions, winLenOf] at hok
  by_cases hst : g.status ≠ GameStatus.inProgress
  · rw [if_pos hst] at hok; exact absurd hok (by simp)
  rw [if_neg hst] at hok
  by_cases hpl : ¬ isPlayer g sender
  · rw [if_pos hpl] at hok; exact absurd hok (by simp)
  rw [if_neg hpl] at hok
  rw [if_neg (by simp [swap2Active])] at hok
  by_cases hbnd : row < 5 ∧ col < 5
  case neg =>
    rw [if_pos (by simpa using hbnd)] at hok; exact absurd hok (by simp)
  rw [if_neg (by simpa using not_not_intro hbnd)] at hok
  cases hE : senderMark g sender with
  | error e => rw [hE] at hok; exact absurd hok (by simp)
  | ok mark =>
  rw [hE] at hok
  dsimp only at hok
  by_cases htn : mark ≠ currentTurnOf g mvCount
  · rw [if_pos htn] at hok; exact absurd hok (by simp)
  rw [if_neg htn] at hok
  by_cases hocc : cells (row : Int) (col : Int) ≠ Cell.empty
  · rw [if_pos hocc] at hok; exact absurd hok (by simp)
  rw [if_neg hocc] at hok
  dsimp only at hok
  have hmark : mark = placerMark g sender := by
    unfold senderMark at hE
    unfold placerMark
    by_cases hs : sender = g.playerX
    · rw [if_pos hs] at hE
      rw [if_pos hs]
      exact (Except.ok.injEq _ _ |>.mp hE).symm
    · rw [if_neg hs] at hE
      rw [if_neg hs]
      by_cases hpo : g.playerO = some sender
      · rw [if_pos hpo] at hE
        exact (Except.ok.injEq _ _ |>.mp hE).symm
      · rw [if_neg hpo] at hE; exact absurd hE (by simp)
  have hso : sender ≠ g.playerX → sender = o := by
    intro hs
    unfold senderMark at hE
    rw [if_neg hs] at hE
    by_cases hpo : g.playerO = some sender
    · rw [ho] at hpo
      exact (Option.some.injEq _ _ |>.mp hpo).symm
    · rw [if_neg hpo] at hE; exact absurd hE (by simp)
  rw [← hmark]
  have hdec : (decide (GameType.squava = GameType.gomoku)) = false := by decide
  rw [hdec] at hok
  have hmne : mark ≠ Cell.empty := by
    rw [hmark]; unfold placerMark
    by_cases hs : sender = g.playerX
    · rw [if_pos hs]; decide
    · rw [if_neg hs]; decide
  have hcell :
      (setCellGrid ⟨5, 5, cells⟩ row col mark).cell (row : Int) (col : Int)
        = mark := by
    simp [setCellGrid]
  have hbridge : ∀ L : Nat,
      checkPatternGrid (setCellGrid ⟨5, 5, cells⟩ row col mark)
          (row : Int) (col : Int) L false = true ↔
        hasRunAtLeast (setCellGrid ⟨5, 5, cells⟩ row col mark) mark
          (row : Int) (col : Int) L := by
    intro L
    have hin : 0 ≤ (row : Int) ∧
        (row : Int) < ((setCellGrid ⟨5, 5, cells⟩ row col mark).rows : Int) ∧
        0 ≤ (col : Int) ∧
        (col : Int) < ((setCellGrid ⟨5, 5, cells⟩ row col mark).cols : Int) := by
      simp only [setCellGrid]
      refine ⟨by omega, ?_, by omega, ?_⟩ <;> omega
    have hmm := checkPattern_inexact_iff
      (setCellGrid ⟨5, 5, cells⟩ row col mark) (row : Int) (col : Int) L
      (by simp only [setCellGrid]; omega) hin (by rw [hcell]; exact hmne)
    rw [hcell] at hmm
    exact hmm
  by_cases hc4 : checkPatternGrid (setCellGrid ⟨5, 5, cells⟩ row col mark)
      (row : Int) (col : Int) 4 false = true
  · rw [if_pos hc4] at hok
    have hres := Except.ok.injEq _ _ |>.mp hok
    constructor
    · intro _
      rw [← hres]
      refine ⟨?_, rfl⟩
      by_cases hs : sender = g.playerX
      · have hmx : mark = Cell.x := by
          rw [hmark]; unfold placerMark; rw [if_pos hs]
        simp [hmx, hs]
      · have hmo : mark = Cell.o := by
          rw [hmark]; unfold placerMark; rw [if_neg hs]
        have hposender : g.playerO = some sender := by rw [ho, hso hs]
        simp [hmo, hposender]
    · rintro ⟨hn4, -⟩
      exact absurd ((hbridge 4).mp hc4) hn4
  · rw [if_neg hc4] at hok
    by_cases hc3 : checkPatternGrid (setCellGrid ⟨5, 5, cells⟩ row col mark)
        (row : Int) (col : Int) 3 false = true
    · rw [if_pos ⟨trivial, hc3⟩] at hok
      have hres := Except.ok.injEq _ _ |>.mp hok
      constructor
      · intro h4
        exact absurd ((hbridge 4).mpr h4) hc4
      · rintro ⟨-, -⟩
        rw [← hres]
        refine ⟨?_, rfl⟩
        by_cases hs : sender = g.playerX
        · have hmx : mark = Cell.x := by
            rw [hmark]; unfold placerMark; rw [if_pos hs]
          simp [hmx, ho, hs]
        · have hmo : mark = Cell.o := by
            rw [hmark]; unfold placerMark; rw [if_neg hs]
          simp [hmo, hs]
    · rw [if_neg (fun h => hc3 h.2)] at hok
      constructor
      · intro h4
        exact absurd ((hbridge 4).mpr h4) hc4
      · rintro ⟨-, h3⟩
        exact absurd ((hbridge 3).mpr h3) hc3

/-- A Squava game with unswapped roles. -/
def squavaGame : Game :=
  { id := 1, type := .squava, name := "SQ", creator := "alice",
    opponent := some "bob", playerX := "alice", playerO := some "bob",
    status := .inProgress, winner := none, gameAsset := none,
    gameBetAmount := none, lastMoveAt := 0, firstMoveCosts := some 0 }

/-- The result of the first Squava move of `squavaGame` at `(0,0)`. -/
def squavaRes : MoveResult :=
  { placedRow := 0, placedCol := 0, mark := Cell.x, newCount := 1,
    moveTs := 9, moveBy := "alice", winner := none,
    status := GameStatus.inProgress, transfers := [] }

/-- Witness for `C3_squava_outcomes` at a concrete accepted placement. -/
theorem C3_squava_outcomes_witness :
    squavaGame.type = GameType.squava ∧ squavaGame.playerO = some "bob" ∧
    MakeMove squavaGame none cellsEmpty 0 "alice" 0 0 9 = .ok squavaRes ∧
    ((hasRunAtLeast (setCellGrid ⟨5, 5, cellsEmpty⟩ 0 0
          (placerMark squavaGame "alice"))
        (placerMark squavaGame "alice") 0 0 4 →
      squavaRes.winner = some "alice" ∧
      squavaRes.status = GameStatus.finished) ∧
     ((¬ hasRunAtLeast (setCellGrid ⟨5, 5, cellsEmpty⟩ 0 0
            (placerMark squavaGame "alice"))
          (placerMark squavaGame "alice") 0 0 4) ∧
       hasRunAtLeast (setCellGrid ⟨5, 5, cellsEmpty⟩ 0 0
          (placerMark squavaGame "alice"))
        (placerMark squavaGame "alice") 0 0 3 →
      squavaRes.winner = some (if "alice" = squavaGame.playerX then "bob"
        else squavaGame.playerX) ∧
      squavaRes.status = GameStatus.finished)) :=
  ⟨rfl, rfl, by decide,
   C3_squava_outcomes squavaGame cellsEmpty 0 "alice" 0 0 9 "bob" squavaRes
     rfl rfl (by decide)⟩

theorem dropScanAux_eq_some (cells : Int → Int → Cell) (col : Nat) :
    ∀ (k r : Nat), r < k → cells (r : Int) (col : Int) = Cell.empty →
      (∀ q : Nat, r < q → q < k → cells (q : Int) (col : Int) ≠ Cell.empty) →
      dropScanAux cells col k = some r := by
  intro k
  induction k with
  | zero => intro r hr; omega
  | succ k ih =>
      intro r hr hemp habove
      by_cases hk : cells (k : Int) (col : Int) = Cell.empty
      · have hrk : r = k := by
          by_contra hne
          exact habove k (by omega) (by omega) hk
        simp [dropScanAux, hk, hrk]
      · have hrk : r < k := by
          rcases Nat.lt_succ_iff_lt_or_eq.mp hr with h | h
          · exact h
          · subst h; exact absurd hemp hk
        simp only [dropScanAux, if_neg hk]
        exact ih r hrk hemp (fun q h1 h2 => habove q h1 (by omega))

theorem dropScanAux_eq_none (cells : Int → Int → Cell) (col : Nat) :
    ∀ k : Nat, (∀ r : Nat, r < k → cells (r : Int) (col : Int) ≠ Cell.empty) →
      dropScanAux cells col k = none := by
  intro k
  induction k with
  | zero => intro _; rfl
  | succ k ih =>
      intro hall
      simp only [dropScanAux, if_neg (hall k (by omega))]
      exact ih (fun r hr => hall r (by omega))

/-- Claim C9.  For every Connect-Four move the entry point would otherwise
accept: when the chosen column has an empty cell, the mark lands on the
largest-index (lowest) empty row of that column and that row — not the
caller-provided one, which is quantified freely here — is the row recorded
in the move log; when the column has no empty cell the call aborts with
"column full". -/
theorem C9_connect_four_drop (g : Game) (cells : Int → Int → Cell)
    (mvCount : Nat) (sender : String) (row col ts : Nat)
    (hty : g.type = GameType.connectFour)
    (hst : g.status = GameStatus.inProgress)
    (hpl : isPlayer g sender = true)
    (hrow : row < 6) (hcol : col < 7)
    (hmk : senderMark g sender = .ok (currentTurnOf g mvCount)) :
    ((∀ r : Nat, r < 6 → cells (r : Int) (col : Int) ≠ Cell.empty) →
      MakeMove g none cells mvCount sender row col ts
        = .error "column full") ∧
    (∀ r : Nat, r < 6 → cells (r : Int) (col : Int) = Cell.empty →
      (∀ q : Nat, r < q → q < 6 → cells (q : Int) (col : Int) ≠ Cell.empty) →
      (MakeMove g none cells mvCount sender row col ts).map
          (fun res => (res.placedRow, res.placedCol, res.mark)) =
        .ok (r, col, currentTurnOf g mvCount)) := by
  constructor
  · intro hfull
    have hdrop : dropDiscGrid ⟨6, 7, cells⟩ col = none :=
      dropScanAux_eq_none cells col 6 hfull
    simp only [MakeMove, hty, boardDimensions]
    rw [if_neg (not_not_intro hst)]
    rw [if_neg (not_not_intro hpl)]
    rw [if_neg (by decide)]
    rw [if_neg (not_not_intro ⟨hrow, hcol⟩)]
    rw [hmk]
    dsimp only
    rw [if_neg (not_not_intro rfl)]
    rw [hdrop]
  · intro r hr hemp habove
    have hdrop : dropDiscGrid ⟨6, 7, cells⟩ col = some r :=
      dropScanAux_eq_some cells col 6 r hr hemp habove
    simp only [MakeMove, hty, boardDimensions]
    rw [if_neg (not_not_intro hst)]
    rw [if_neg (not_not_intro hpl)]
    rw [if_neg (by decide)]
    rw [if_neg (not_not_intro ⟨hrow, hcol⟩)]
    rw [hmk]
    dsimp only
    rw [if_neg (not_not_intro rfl)]
    rw [hdrop]
    dsimp only
    split
    · rfl
    · split
      · rfl
      · split
        · rfl
        · rfl

/-- A Connect-Four game with unswapped roles. -/
def c4Game : Game :=
  { id := 2, type := .connectFour, name := "C4", creator := "alice",
    opponent := some "bob", playerX := "alice", playerO := some "bob",
    status := .inProgress, winner := none, gameAsset := none,
    gameBetAmount := none, lastMoveAt := 0, firstMoveCosts := some 0 }

/-- Witness for `C9_connect_four_drop` on an empty board: the first drop in
column 0 lands on the bottom row 5, whatever row the caller sent. -/
theorem C9_connect_four_drop_witness :
    c4Game.type = GameType.connectFour ∧
    c4Game.status = GameStatus.inProgress ∧
    isPlayer c4Game "alice" = true ∧ 2 < 6 ∧ 0 < 7 ∧
    senderMark c4Game "alice" = .ok (currentTurnOf c4Game 0) ∧
    (((∀ r : Nat, r < 6 → cellsEmpty (r : Int) (0 : Int) ≠ Cell.empty) →
        MakeMove c4Game none cellsEmpty 0 "alice" 2 0 9
          = .error "column full") ∧
     (∀ r : Nat, r < 6 → cellsEmpty (r : Int) (0 : Int) = Cell.empty →
        (∀ q : Nat, r < q → q < 6 →
          cellsEmpty (q : Int) (0 : Int) ≠ Cell.empty) →
        (MakeMove c4Game none cellsEmpty 0 "alice" 2 0 9).map
            (fun res => (res.placedRow, res.placedCol, res.mark)) =
          .ok (r, 0, currentTurnOf c4Game 0))) :=
  ⟨rfl, rfl, by decide, by decide, by decide, by decide,
   C9_connect_four_drop c4Game cellsEmpty 0 "alice" 2 0 9 rfl rfl
     (by decide) (by decide) (by decide) (by decide)⟩

/-- Claim C4.  Joining a game with a defined wager: with no
`transfer.allow` intent, a wrong token, or a scaled limit below the bet the
call aborts (the model returns `.error`, performing no draw); with
`first_move_cost > 0` and a limit covering `bet + first_move_cost`, exactly
that sum is drawn, exactly `first_move_cost` is transferred to the creator
and the roles are swapped; otherwise exactly `bet` is drawn and the roles
stay `player_x = creator`, `player_o = joiner`.  The overflow hypothesis
keeps the `uint64` sum below wrapping, so the Go comparison agrees with the
arithmetic one. -/
theorem C4_join_economy (g : Game) (sender : String) (a : String) (b : Nat)
    (hst : g.status = GameStatus.waitingForPlayer)
    (hsn : sender ≠ g.creator)
    (ha : g.gameAsset = some a) (hb : g.gameBetAmount = some b)
    (hb0 : 0 < b) (hov : b + g.firstMoveCosts.getD 0 < 2 ^ 63) :
    (JoinGame g sender none = .error "intent missing") ∧
    (∀ tok lim, tok ≠ a →
      JoinGame g sender (some (tok, lim)) = .error "wrong bet token") ∧
    (∀ lim, lim < b →
      JoinGame g sender (some (a, lim))
        = .error "must cover at least base bet") ∧
    (∀ lim, b ≤ lim → 0 < g.firstMoveCosts.getD 0 →
      b + g.firstMoveCosts.getD 0 ≤ lim →
      ∃ res, JoinGame g sender (some (a, lim)) = .ok res ∧
        res.drawn = b + g.firstMoveCosts.getD 0 ∧
        res.transfers = [(g.creator, g.firstMoveCosts.getD 0)] ∧
        res.playerX = sender ∧ res.playerO = some g.creator) ∧
    (∀ lim, b ≤ lim →
      ¬ (0 < g.firstMoveCosts.getD 0 ∧ b + g.firstMoveCosts.getD 0 ≤ lim) →
      ∃ res, JoinGame g sender (some (a, lim)) = .ok res ∧
        res.drawn = b ∧ res.transfers = [] ∧
        res.playerX = g.creator ∧ res.playerO = some sender) := by
  have hmod : (b + g.firstMoveCosts.getD 0) % 2 ^ 64
      = b + g.firstMoveCosts.getD 0 := by
    apply Nat.mod_eq_of_lt
    calc b + g.firstMoveCosts.getD 0 < 2 ^ 63 := hov
      _ < 2 ^ 64 := by norm_num
  refine ⟨?_, ?_, ?_, ?_, ?_⟩
  · simp only [JoinGame, ha, hb]
    rw [if_neg (not_not_intro hst), if_neg hsn, if_pos hb0]
  · intro tok lim hto
    simp only [JoinGame, ha, hb]
    rw [if_neg (not_not_intro hst), if_neg hsn, if_pos hb0]
    rw [if_pos hto]
  · intro lim hlim
    simp only [JoinGame, ha, hb]
    rw [if_neg (not_not_intro hst), if_neg hsn, if_pos hb0]
    rw [if_neg (not_not_intro rfl), if_pos hlim]
  · intro lim hlim hf hle
    simp only [JoinGame, ha, hb]
    rw [if_neg (not_not_intro hst), if_neg hsn, if_pos hb0]
    rw [if_neg (not_not_intro rfl), if_neg (by omega), hmod,
      if_pos ⟨hf, hle⟩]
    exact ⟨_, rfl, rfl, rfl, rfl, rfl⟩
  · intro lim hlim hno
    simp only [JoinGame, ha, hb]
    rw [if_neg (not_not_intro hst), if_neg hsn, if_pos hb0]
    rw [if_neg (not_not_intro rfl), if_neg (by omega), hmod, if_neg hno]
    exact ⟨_, rfl, rfl, rfl, rfl, rfl⟩

/-- A waiting game with a wager of 1.000 and a first-move cost of 0.200. -/
def betGame : Game :=
  { id := 3, type := .ticTacToe, name := "B", creator := "alice",
    opponent := none, playerX := "alice", playerO := none,
    status := .waitingForPlayer, winner := none, gameAsset := some "HIVE",
    gameBetAmount := some 1000, lastMoveAt := 0, firstMoveCosts := some 200 }

/-- Witness for `C4_join_economy` on `betGame`. -/
theorem C4_join_economy_witness :
    betGame.status = GameStatus.waitingForPlayer ∧
    "bob" ≠ betGame.creator ∧
    betGame.gameAsset = some "HIVE" ∧ betGame.gameBetAmount = some 1000 ∧
    0 < 1000 ∧ 1000 + betGame.firstMoveCosts.getD 0 < 2 ^ 63 ∧
    ((JoinGame betGame "bob" none = .error "intent missing") ∧
     (∀ tok lim, tok ≠ "HIVE" →
       JoinGame betGame "bob" (some (tok, lim))
         = .error "wrong bet token") ∧
     (∀ lim, lim < 1000 →
       JoinGame betGame "bob" (some ("HIVE", lim))
         = .error "must cover at least base bet") ∧
     (∀ lim, 1000 ≤ lim → 0 < betGame.firstMoveCosts.getD 0 →
       1000 + betGame.firstMoveCosts.getD 0 ≤ lim →
       ∃ res, JoinGame betGame "bob" (some ("HIVE", lim)) = .ok res ∧
         res.drawn = 1000 + betGame.firstMoveCosts.getD 0 ∧
         res.transfers = [(betGame.creator, betGame.firstMoveCosts.getD 0)] ∧
         res.playerX = "bob" ∧ res.playerO = some betGame.creator) ∧
     (∀ lim, 1000 ≤ lim →
       ¬ (0 < betGame.firstMoveCosts.getD 0 ∧
           1000 + betGame.firstMoveCosts.getD 0 ≤ lim) →
       ∃ res, JoinGame betGame "bob" (some ("HIVE", lim)) = .ok res ∧
         res.drawn = 1000 ∧ res.transfers = [] ∧
         res.playerX = betGame.creator ∧ res.playerO = some "bob")) :=
  ⟨rfl, by decide, rfl, rfl, by decide, by decide,
   C4_join_economy betGame "bob" "HIVE" 1000 rfl (by decide) rfl rfl
     (by decide) (by decide)⟩

/-- The actor the timeout claim expects to move: during Swap2 the openings
`next_actor`, otherwise the player whose mark equals the parity-derived
next mark (X even, O odd). -/
def expectedActor (g : Game) (sw : Option Swap2St) (mvCount : Nat)
    (o : String) : String :=
  match sw with
  | some s =>
      if s.phase ≠ 0 then s.nextActor
      else (if mvCount % 2 = 0 then g.playerX else o)
  | none => if mvCount % 2 = 0 then g.playerX else o

theorem claimNormal_eq (g : Game) (o : String) (mvCount : Nat)
    (sender : String) (now : Nat) :
    ClaimTimeoutNormal g o mvCount sender now =
      (if sender = (if mvCount % 2 = 0 then o else g.playerX) then
        .ok { winner := (if mvCount % 2 = 0 then o else g.playerX),
              timedOut := (if mvCount % 2 = 0 then g.playerX else o),
              status := .finished, lastMoveAt := now,
              transfers :=
                if g.gameBetAmount.isSome then
                  transferPot g (if mvCount % 2 = 0 then o else g.playerX)
                else [],
              swapCleared := false }
      else .error "only opponent can claim timeout") := by
  unfold ClaimTimeoutNormal nextToPlay
  by_cases hev : mvCount % 2 = 0
  · by_cases hs : sender = o <;> simp [hev, hs]
  · by_cases hs : sender = g.playerX <;> simp [hev, hs]

theorem claimTimeout_pos_eq (g : Game) (sw : Option Swap2St)
    (mvCount : Nat) (sender : String) (now : Nat) (o : String)
    (hst : g.status = GameStatus.inProgress) (ho : g.playerO = some o)
    (hxo : g.playerX ≠ o)
    (hty : swap2Active sw = true → g.type = GameType.gomoku)
    (hpl : isPlayer g sender = true)
    (htm : g.lastMoveAt + gameTimeout < now) :
    ∃ t trs sc,
      ClaimTimeout g sw mvCount sender now =
        (if sender = (if expectedActor g sw mvCount o = g.playerX then o
            else g.playerX) then
          .ok { winner := (if expectedActor g sw mvCount o = g.playerX then o
                  else g.playerX),
                timedOut := t, status := .finished, lastMoveAt := now,
                transfers := trs, swapCleared := sc }
        else if swap2Active sw = true then
          .error "only winning player can claim timeout"
        else .error "only opponent can claim timeout") := by
  unfold ClaimTimeout
  rw [ho]
  dsimp only
  rw [if_neg (not_not_intro hst), if_neg (not_not_intro hpl),
    if_neg (not_not_intro htm)]
  have hnotxo : ¬ (o = g.playerX) := fun h => hxo h.symm
  cases sw with
  | none =>
      refine ⟨if mvCount % 2 = 0 then g.playerX else o,
        if g.gameBetAmount.isSome then
          transferPot g (if mvCount % 2 = 0 then o else g.playerX)
        else [], false, ?_⟩
      rw [claimNormal_eq]
      unfold expectedActor
      by_cases hev : mvCount % 2 = 0
      · simp [hev, swap2Active]
      · simp [hev, hnotxo, swap2Active]
  | some st =>
      dsimp only
      by_cases hph : st.phase ≠ 0
      · have hgom : g.type = GameType.gomoku := hty (by simp [swap2Active, hph])
        rw [if_pos ⟨hgom, hph⟩]
        refine ⟨if st.nextActor = g.playerX then g.playerX else o,
          if g.gameBetAmount.isSome then
            transferPot g (if st.nextActor = g.playerX then o else g.playerX)
          else [], true, ?_⟩
        simp only [expectedActor]
        by_cases hna : st.nextActor = g.playerX
        · by_cases hs : sender = o <;> simp [hna, hs, swap2Active, hph]
        · by_cases hs : sender = g.playerX <;>
            simp [hna, hs, hnotxo, swap2Active, hph]
      · rw [if_neg (fun h => hph h.2)]
        refine ⟨if mvCount % 2 = 0 then g.playerX else o,
          if g.gameBetAmount.isSome then
            transferPot g (if mvCount % 2 = 0 then o else g.playerX)
          else [], false, ?_⟩
        rw [claimNormal_eq]
        simp only [expectedActor]
        have hsw : swap2Active (some st) = false := by
          simp only [swap2Active, decide_eq_false_iff_not]
          exact hph
        by_cases hev : mvCount % 2 = 0
        · simp [hev, hsw, hph]
        · simp [hev, hnotxo, hsw, hph]

/-- Claim C5.  A timeout claim on an in-progress game with an opponent
succeeds exactly when the block time strictly exceeds the last move
timestamp plus 604800 seconds and the sender is the participant other than
the expected actor (the openings `next_actor` during Swap2, else the
parity player); on success the sender is the winner.  Any other sender or
an unexpired window yields an abort, which performs no state change in
this model. -/
theorem C5_timeout_eligibility (g : Game) (sw : Option Swap2St)
    (mvCount : Nat) (sender : String) (now : Nat) (o : String)
    (hst : g.status = GameStatus.inProgress) (ho : g.playerO = some o)
    (hxo : g.playerX ≠ o)
    (hty : swap2Active sw = true → g.type = GameType.gomoku) :
    ((ClaimTimeout g sw mvCount sender now).toOption.isSome = true ↔
      (g.lastMoveAt + gameTimeout < now ∧
        sender = (if expectedActor g sw mvCount o = g.playerX then o
          else g.playerX))) ∧
    (∀ r, ClaimTimeout g sw mvCount sender now = .ok r →
      r.winner = sender ∧ r.status = GameStatus.finished) := by
  by_cases hpl : isPlayer g sender = true
  case neg =>
    have herr : ClaimTimeout g sw mvCount sender now
        = .error "not a player" := by
      unfold ClaimTimeout
      rw [if_neg (not_not_intro hst), ho]
      dsimp only
      rw [if_pos hpl]
    rw [herr]
    constructor
    · constructor
      · intro h; simp [Except.toOption] at h
      · rintro ⟨-, hsend⟩
        exfalso
        apply hpl
        by_cases h1 : expectedActor g sw mvCount o = g.playerX
        · rw [if_pos h1] at hsend
          simp [isPlayer, ho, hsend]
        · rw [if_neg h1] at hsend
          simp [isPlayer, hsend]
    · intro r hr; simp at hr
  case pos =>
  by_cases htm : g.lastMoveAt + gameTimeout < now
  case neg =>
    have herr : ClaimTimeout g sw mvCount sender now
        = .error "timeout not reached" := by
      unfold ClaimTimeout
      rw [if_neg (not_not_intro hst), ho]
      dsimp only
      rw [if_neg (not_not_intro hpl), if_pos htm]
    rw [herr]
    constructor
    · constructor
      · intro h; simp [Except.toOption] at h
      · rintro ⟨h, -⟩; exact absurd h htm
    · intro r hr; simp at hr
  case pos =>
    obtain ⟨t, trs, sc, heq⟩ :=
      claimTimeout_pos_eq g sw mvCount sender now o hst ho hxo hty hpl htm
    rw [heq]
    by_cases hs : sender
        = (if expectedActor g sw mvCount o = g.playerX then o else g.playerX)
    · rw [if_pos hs]
      constructor
      · simp [Except.toOption, htm, hs]
      · intro r hr
        have hrec := (Except.ok.injEq _ _).mp hr
        rw [← hrec]
        exact ⟨hs.symm, rfl⟩
    · rw [if_neg hs]
      constructor
      · constructor
        · intro h
          by_cases hsw : swap2Active sw = true
          · rw [if_pos hsw] at h; simp [Except.toOption] at h
          · rw [if_neg hsw] at h; simp [Except.toOption] at h
        · rintro ⟨-, hsend⟩; exact absurd hsend hs
      · intro r hr
        by_cases hsw : swap2Active sw = true
        · rw [if_pos hsw] at hr; simp at hr
        · rw [if_neg hsw] at hr; simp at hr

/-- A tic-tac-toe game one second past its timeout window. -/
def timeoutGame : Game :=
  { id := 4, type := .ticTacToe, name := "T", creator := "alice",
    opponent := some "bob", playerX := "alice", playerO := some "bob",
    status := .inProgress, winner := none, gameAsset := none,
    gameBetAmount := none, lastMoveAt := 0, firstMoveCosts := some 0 }

/-- Witness for `C5_timeout_eligibility`: with zero moves X (`alice`) is
due, so `bob` may claim after the window. -/
theorem C5_timeout_eligibility_witness :
    timeoutGame.status = GameStatus.inProgress ∧
    timeoutGame.playerO = some "bob" ∧
    timeoutGame.playerX ≠ "bob" ∧
    (swap2Active none = true → timeoutGame.type = GameType.gomoku) ∧
    (((ClaimTimeout timeoutGame none 0 "bob" 604801).toOption.isSome = true ↔
      (timeoutGame.lastMoveAt + gameTimeout < 604801 ∧
        "bob" = (if expectedActor timeoutGame none 0 "bob"
            = timeoutGame.playerX then "bob"
          else timeoutGame.playerX))) ∧
     (∀ r, ClaimTimeout timeoutGame none 0 "bob" 604801 = .ok r →
       r.winner = "bob" ∧ r.status = GameStatus.finished)) :=
  ⟨rfl, rfl, by decide, by decide,
   C5_timeout_eligibility timeoutGame none 0 "bob" 604801 "bob" rfl rfl
     (by decide) (by decide)⟩
